import Mathlib

/-!
Shallow embedding of the MECOBE dashboard's core logic: the spreadsheet
ingestion and classification pipeline of src/excel-loader.js and the
filter engine of src/dashboard.js.

Modelling conventions:
* JavaScript strings are Lean `String`s; cells extracted from the sheet
  are always strings (`sheet_to_json` with `defval: ''` and `raw: false`).
* JavaScript finite numbers are `ℚ`; `NaN` is represented by `Option.none`
  at the `parseFloat` boundary (non-finite literals such as "Infinity" are
  outside the model).
* Every call to `Math.random()` reads the next value from an explicit
  stream `rng : Nat → ℚ` (values in `[0,1)`) at a counter `k` that is
  threaded through the computation.
* A JavaScript value that may be `undefined` is an `Option`.
-/

/-- Character-list version of "does `pat` start the list". -/
def listStartsWith : List Char → List Char → Bool
  | [], _ => true
  | _ :: _, [] => false
  | p :: ps, c :: cs => p == c && listStartsWith ps cs

/-- Substring containment on character lists, scanning left to right. -/
def listContainsSub (pat : List Char) : List Char → Bool
  | [] => pat.isEmpty
  | c :: t => listStartsWith pat (c :: t) || listContainsSub pat t

/-- JavaScript `haystack.includes(needle)`. -/
def jsIncludes (s pat : String) : Bool := listContainsSub pat.data s.data

/-- Strip leading and trailing whitespace from a character list. -/
def trimChars (l : List Char) : List Char :=
  ((l.dropWhile Char.isWhitespace).reverse.dropWhile Char.isWhitespace).reverse

/-- JavaScript `s.trim()`. -/
def jsTrim (s : String) : String := ⟨trimChars s.data⟩

/-- JavaScript `s.toLowerCase()` (ASCII letters; the repository's header
keywords and test data are ASCII or already lowercase). -/
def jsToLower (s : String) : String := ⟨s.data.map Char.toLower⟩

/-- utils.normalizeString of src/excel-loader.js: falsy input gives `""`,
otherwise trim then lowercase. -/
def normalizeString (s : String) : String :=
  if s = "" then "" else jsToLower (jsTrim s)

/-- JavaScript `Math.round`: floor of x + 1/2 (rounds halves toward +∞). -/
def jsRound (q : ℚ) : Int := ⌊q + 1/2⌋

/-- Value of a digit string read in base 10. -/
def digitsVal (l : List Char) : Nat :=
  l.foldl (fun acc c => acc * 10 + (c.toNat - 48)) 0

/-- Signed digit run used for the exponent part of a float literal; an
empty digit run contributes exponent 0 (JavaScript keeps the longest valid
numeric prefix, so "1e" parses as 1). -/
def parseSignedDigits (l : List Char) : Int :=
  match l with
  | '-' :: t =>
      if (t.takeWhile Char.isDigit).isEmpty then 0
      else -(digitsVal (t.takeWhile Char.isDigit) : Int)
  | '+' :: t =>
      if (t.takeWhile Char.isDigit).isEmpty then 0
      else (digitsVal (t.takeWhile Char.isDigit) : Int)
  | t =>
      if (t.takeWhile Char.isDigit).isEmpty then 0
      else (digitsVal (t.takeWhile Char.isDigit) : Int)

/-- Exponent marker of a float literal. -/
def parseExp (l : List Char) : Int :=
  match l with
  | 'e' :: t => parseSignedDigits t
  | 'E' :: t => parseSignedDigits t
  | _ => 0

/-- JavaScript `parseFloat`: skip leading whitespace, optional sign,
integer digits, optional fraction, optional exponent; the longest valid
numeric prefix is used and `none` (NaN) is returned when no digit is
consumed. -/
def jsParseFloat (s : String) : Option ℚ :=
  let l := s.data.dropWhile Char.isWhitespace
  let sign : ℚ := match l with | '-' :: _ => -1 | _ => 1
  let l1 := match l with | '-' :: t => t | '+' :: t => t | t => t
  let ip := l1.takeWhile Char.isDigit
  let l2 := l1.dropWhile Char.isDigit
  let fp := match l2 with | '.' :: t => t.takeWhile Char.isDigit | _ => []
  let l3 := match l2 with | '.' :: t => t.dropWhile Char.isDigit | _ => l2
  if ip.isEmpty && fp.isEmpty then none
  else
    some (sign * ((digitsVal ip : ℚ) + (digitsVal fp : ℚ) / ((10 : ℚ) ^ fp.length))
      * (10 : ℚ) ^ parseExp l3)

/-- utils.parseSegment of src/excel-loader.js.  On finite numeric
arguments `parseFloat(x) || 0` is the identity (it only rewrites NaN to
0), so the embedding takes the numbers directly. -/
def parseSegment (volume affinity : ℚ) : String :=
  if 60 ≤ volume ∧ 60 ≤ affinity then "blindar"
  else if volume < 60 ∧ 60 ≤ affinity then "incentivar"
  else if 60 ≤ volume ∧ affinity < 60 then "avaliar"
  else "conquistar"

/-- utils.parsePriority of src/excel-loader.js, same numeric convention. -/
def parsePriority (volume affinity : ℚ) (segment : String) : String :=
  if segment = "blindar" then "strategic"
  else if 80 < volume ∨ 80 < affinity then "high"
  else if volume < 40 ∧ affinity < 40 then "new-opportunities"
  else "strategic"

/-- The ordered synonym table of utils.parseSpecialty (object literal
entry order is preserved by Object.entries for string keys). -/
def specialtyMap : List (String × String) :=
  [("cardiologia", "cardiologia"), ("cardio", "cardiologia"),
   ("neurologia", "neurologia"), ("neuro", "neurologia"),
   ("ortopedia", "ortopedia"), ("orto", "ortopedia"),
   ("ginecologia", "ginecologia"), ("gineco", "ginecologia"),
   ("urologia", "urologia"), ("uro", "urologia"),
   ("dermatologia", "dermatologia"), ("derma", "dermatologia"),
   ("gastroenterologia", "gastroenterologia"), ("gastro", "gastroenterologia"),
   ("endocrinologia", "endocrinologia"), ("endocrino", "endocrinologia"),
   ("pneumologia", "pneumologia"), ("pneumo", "pneumologia"),
   ("reumatologia", "reumatologia"), ("reuma", "reumatologia"),
   ("oncologia", "oncologia"), ("onco", "oncologia"),
   ("pediatria", "pediatria"), ("pediatra", "pediatria"),
   ("psiquiatria", "psiquiatria"), ("psiquiatra", "psiquiatria"),
   ("oftalmologia", "oftalmologia"), ("oftalmo", "oftalmologia"),
   ("nefrologia", "nefrologia"), ("nefro", "nefrologia"),
   ("infectologia", "infectologia"), ("infectologista", "infectologia"),
   ("hematologia", "hematologia"), ("hemato", "hematologia"),
   ("geriatria", "geriatria"), ("geriatra", "geriatria"),
   ("anestesiologia", "anestesiologia"), ("anestesista", "anestesiologia"),
   ("radiologia", "radiologia"), ("radiologo", "radiologia"),
   ("patologia", "patologia"), ("patologo", "patologia"),
   ("cirurgia", "cirurgia-geral"), ("cirurgiao", "cirurgia-geral"),
   ("medicina interna", "medicina-interna"), ("clinica", "medicina-interna"),
   ("clinico", "medicina-interna")]

/-- utils.parseSpecialty: first synonym contained in the normalized text
wins; empty/falsy text or no match gives "outras". -/
def parseSpecialty (text : String) : String :=
  if text = "" then "outras"
  else
    match specialtyMap.find? (fun kv => jsIncludes (normalizeString text) kv.1) with
    | some kv => kv.2
    | none => "outras"

/-- Column map produced by dataProcessor.identifyColumns; `none` is the
JavaScript `null` initial value. -/
structure ColumnMap where
  name : Option Nat
  specialty : Option Nat
  volume : Option Nat
  affinity : Option Nat
deriving Repr, DecidableEq

/-- dataProcessor.identifyColumns: a single left-to-right scan over the
headers, each field independently overwritten by the latest matching
header index. -/
def identifyColumns (headers : List String) : ColumnMap :=
  headers.enum.foldl (fun cm p =>
    let nh := normalizeString p.2
    let cm1 := if jsIncludes nh "nome" || jsIncludes nh "medico" ||
        jsIncludes nh "doutor" || jsIncludes nh "profissional" then
        { cm with name := some p.1 } else cm
    let cm2 := if jsIncludes nh "especialidade" || jsIncludes nh "area" ||
        jsIncludes nh "especialização" then
        { cm1 with specialty := some p.1 } else cm1
    let cm3 := if jsIncludes nh "volume" || jsIncludes nh "consultas" ||
        jsIncludes nh "atendimentos" then
        { cm2 with volume := some p.1 } else cm2
    if jsIncludes nh "afinidade" || jsIncludes nh "relacionamento" ||
        jsIncludes nh "engajamento" then
        { cm3 with affinity := some p.1 } else cm3)
    ⟨none, none, none, none⟩

/-- JavaScript `row[idx]`: `undefined` (`none`) when the column is
unresolved (`row[null]`) or the index is out of range. -/
def cellAt (row : List String) : Option Nat → Option String
  | none => none
  | some i => row.get? i

/-- Truthiness test `!columnMap.name`: true for `null` and for index 0. -/
def jsFalsyIdx : Option Nat → Bool
  | none => true
  | some i => i == 0

/-- `row[columnMap.specialty] || ''`: `undefined` and `''` collapse to `''`. -/
def jsOrEmpty : Option String → String
  | none => ""
  | some s => s

/-- The raw-extraction step `row[idx] || Math.random() * 100`: a missing
or empty cell is falsy and draws a random number, any other string is
kept.  The result is a JavaScript string-or-number union. -/
def rawCell (cell : Option String) (rng : Nat → ℚ) (k : Nat) :
    (String ⊕ ℚ) × Nat :=
  match cell with
  | none => (Sum.inr (rng k * 100), k + 1)
  | some s => if s = "" then (Sum.inr (rng k * 100), k + 1) else (Sum.inl s, k)

/-- The second step `parseFloat(x) || Math.random() * 100`: NaN (failed
parse) and 0 are falsy and draw a random number; `parseFloat` of a finite
number is that number. -/
def processNumeric (raw : String ⊕ ℚ) (rng : Nat → ℚ) (k : Nat) : ℚ × Nat :=
  match raw with
  | Sum.inl s =>
      match jsParseFloat s with
      | none => (rng k * 100, k + 1)
      | some q => if q = 0 then (rng k * 100, k + 1) else (q, k)
  | Sum.inr r => if r = 0 then (rng k * 100, k + 1) else (r, k)

/-- The numeric part of dataProcessor.processRow in source order: raw
volume, raw affinity, processed volume, processed affinity (each stage
may consume one random draw). -/
def processRowNums (row : List String) (cm : ColumnMap) (rng : Nat → ℚ)
    (k : Nat) : ℚ × ℚ × Nat :=
  let rv := rawCell (cellAt row cm.volume) rng k
  let ra := rawCell (cellAt row cm.affinity) rng rv.2
  let pv := processNumeric rv.1 rng ra.2
  let pa := processNumeric ra.1 rng pv.2
  (pv.1, pa.1, pa.2)

/-- A processed doctor record.  The hardcoded fallback entries carry no
`originalRow` property, hence the `Option`. -/
structure Doctor where
  id : Nat
  name : String
  specialty : String
  segment : String
  volume : Int
  affinity : Int
  priority : String
  originalRow : Option Nat
deriving Repr, DecidableEq

/-- dataProcessor.processRow: resolve columns, reject when the name
column is falsy (null or index 0) or the name cell is missing/blank,
otherwise normalize the fields, classify, and emit the record. -/
def processRow (row : List String) (headers : List String) (rowNumber : Nat)
    (rng : Nat → ℚ) (k : Nat) : Option Doctor × Nat :=
  let columnMap := identifyColumns headers
  if jsFalsyIdx columnMap.name then (none, k)
  else
    match cellAt row columnMap.name with
    | none => (none, k)
    | some nameStr =>
      if nameStr = "" ∨ (normalizeString nameStr).length = 0 then (none, k)
      else
        let specialty := jsOrEmpty (cellAt row columnMap.specialty)
        let pn := processRowNums row columnMap rng k
        let segment := parseSegment pn.1 pn.2.1
        let priority := parsePriority pn.1 pn.2.1 segment
        (some { id := rowNumber, name := jsTrim nameStr,
                specialty := parseSpecialty specialty, segment := segment,
                volume := jsRound pn.1, affinity := jsRound pn.2.1,
                priority := priority, originalRow := some rowNumber },
         pn.2.2)

/-- The forEach loop of dataProcessor.processRawData: run processRow on
every data row (row number = data index + 2), collecting the successes. -/
def processRows (headers : List String) (rng : Nat → ℚ) :
    List (List String) → Nat → Nat → List Doctor × Nat
  | [], _, k => ([], k)
  | r :: rest, idx, k =>
    match processRow r headers (idx + 2) rng k with
    | (some d, k1) =>
      ((d :: (processRows headers rng rest (idx + 1) k1).1),
       (processRows headers rng rest (idx + 1) k1).2)
    | (none, k1) => processRows headers rng rest (idx + 1) k1

/-- dataProcessor.processRawData: fewer than 2 grid rows throws, else the
first row is the header row and the rest are processed. -/
def processRawData (rawData : List (List String)) (rng : Nat → ℚ) (k : Nat) :
    Except String (List Doctor) × Nat :=
  if rawData.length < 2 then (Except.error "Dados insuficientes na planilha", k)
  else
    let res := processRows (rawData.headD []) rng rawData.tail 0 k
    (Except.ok res.1, res.2)

/-- mainLoader.getFallbackData: the fixed 3-entry sample dataset. -/
def getFallbackData : List Doctor :=
  [{ id := 1, name := "Dr. João Silva", specialty := "cardiologia",
     segment := "blindar", volume := 85, affinity := 90, priority := "high",
     originalRow := none },
   { id := 2, name := "Dra. Maria Santos", specialty := "neurologia",
     segment := "blindar", volume := 82, affinity := 88, priority := "high",
     originalRow := none },
   { id := 3, name := "Dr. Pedro Oliveira", specialty := "ortopedia",
     segment := "incentivar", volume := 45, affinity := 88,
     priority := "new-opportunities", originalRow := none }]

/-- mainLoader.loadData: the fetch/parse/extract stages are external
collaborators modelled by an `Except` input (any of their failures is an
`error`); every error reaching the catch block yields the fallback data. -/
def loadData (extracted : Except String (List (List String)))
    (rng : Nat → ℚ) (k : Nat) : List Doctor :=
  match extracted with
  | Except.error _ => getFallbackData
  | Except.ok rawData =>
    match processRawData rawData rng k with
    | (Except.error _, _) => getFallbackData
    | (Except.ok ds, _) => ds

/-- The dashboard's filter state object (dashboard.js `currentFilters`).
The max bounds exist in the object but are never read by applyFilters. -/
structure FilterState where
  search : String
  segments : List String
  specialty : String
  volumeMin : Int
  volumeMax : Int
  affinityMin : Int
  affinityMax : Int
  quickFilters : List String
deriving Repr, DecidableEq

/-- The initial filter state of dashboard.js. -/
def defaultFilters : FilterState :=
  { search := "", segments := [], specialty := "", volumeMin := 0,
    volumeMax := 100, affinityMin := 0, affinityMax := 100, quickFilters := [] }

/-- Replace the first hyphen of a character list with an underscore
(JavaScript `s.replace('-', '_')` replaces only the first occurrence). -/
def replaceFirstHyphen : List Char → List Char
  | [] => []
  | c :: cs => if c = '-' then '_' :: cs else c :: replaceFirstHyphen cs

/-- JavaScript `filter.replace('-', '_')` from dashboard.js applyFilters. -/
def jsReplaceHyphen (s : String) : String := ⟨replaceFirstHyphen s.data⟩

/-- Search stage of filtersModule.applyFilters (skipped for empty search). -/
def stageSearch (f : FilterState) (l : List Doctor) : List Doctor :=
  if f.search = "" then l
  else l.filter (fun d => jsIncludes (jsToLower d.name) (jsToLower f.search))

/-- Segment multi-select stage (skipped when no segment is selected). -/
def stageSegments (f : FilterState) (l : List Doctor) : List Doctor :=
  if f.segments.length > 0 then l.filter (fun d => f.segments.contains d.segment)
  else l

/-- Specialty stage (skipped for empty specialty). -/
def stageSpecialty (f : FilterState) (l : List Doctor) : List Doctor :=
  if f.specialty = "" then l
  else l.filter (fun d => d.specialty == f.specialty)

/-- Minimum-volume stage (always applied). -/
def stageVolume (f : FilterState) (l : List Doctor) : List Doctor :=
  l.filter (fun d => f.volumeMin ≤ d.volume)

/-- Minimum-affinity stage (always applied). -/
def stageAffinity (f : FilterState) (l : List Doctor) : List Doctor :=
  l.filter (fun d => f.affinityMin ≤ d.affinity)

/-- Quick-filter stage: a doctor passes when its priority equals some
active tag after the tag's first hyphen is rewritten to an underscore. -/
def stageQuick (f : FilterState) (l : List Doctor) : List Doctor :=
  if f.quickFilters.length > 0 then
    l.filter (fun d => f.quickFilters.any (fun t => d.priority == jsReplaceHyphen t))
  else l

/-- filtersModule.applyFilters of src/dashboard.js: the six filter stages
in source order. -/
def applyFilters (doctors : List Doctor) (f : FilterState) : List Doctor :=
  stageQuick f (stageAffinity f (stageVolume f (stageSpecialty f
    (stageSegments f (stageSearch f doctors)))))

/-- The processed (pre-rounding) volume and affinity of a row together
with the final random counter, as computed inside processRow. -/
def rowNums (row headers : List String) (rng : Nat → ℚ) (k : Nat) :
    ℚ × ℚ × Nat :=
  processRowNums row (identifyColumns headers) rng k

/-- Constant-zero random stream, used to close concrete evaluations. -/
def rng0 : Nat → ℚ := fun _ => 0

/-- Constant one-half random stream (every draw yields 50 after ×100). -/
def rngHalf : Nat → ℚ := fun _ => 1/2

/-- Header row of end-to-end scenario A from the specification. -/
def scenarioAHeaders : List String := ["Nome", "Especialidade", "Volume", "Afinidade"]

/-- The full scenario A grid: header row plus one data row. -/
def scenarioAGrid : List (List String) :=
  [scenarioAHeaders, ["Dr. Teste", "Cardio", "85", "90"]]

/-- Header row whose name-matching header is not at index 0, used to
exercise processRow past the falsy index-0 guard. -/
def c1headers : List String := ["id", "Nome", "Volume", "Afinidade"]

/-- A data row whose volume cell carries the fractional value 59.5. -/
def c1row : List String := ["1", "Dr. A", "59.5", "60"]

/-- The record produced from `c1row`: the segment was classified from
the pre-rounding pair (59.5, 60) but the stored volume is rounded to 60. -/
def c1doc : Doctor :=
  { id := 2, name := "Dr. A", specialty := "outras", segment := "incentivar",
    volume := 60, affinity := 60, priority := "strategic", originalRow := some 2 }

/-- The record produced from the integer-valued row of the C1 witness. -/
def c1wdoc : Doctor :=
  { id := 2, name := "Dr. C", specialty := "outras", segment := "blindar",
    volume := 85, affinity := 90, priority := "strategic", originalRow := some 2 }

/-- A data row whose volume cell is the well-formed number "0". -/
def c3row : List String := ["", "Dr. B", "0", "70"]

/-- The record produced from `c3row` under `rngHalf`: the parsed 0 was
discarded as falsy and the random draw 50 stored instead. -/
def c3doc : Doctor :=
  { id := 2, name := "Dr. B", specialty := "outras", segment := "incentivar",
    volume := 50, affinity := 70, priority := "strategic", originalRow := some 2 }

/-- Grid with one blank-name data row and one valid data row. -/
def c6grid : List (List String) :=
  [c1headers, ["", "   ", "10", "20"], ["", "Dr. D", "70", "80"]]

/-- The single record surviving from `c6grid`. -/
def c6doc : Doctor :=
  { id := 3, name := "Dr. D", specialty := "outras", segment := "blindar",
    volume := 70, affinity := 80, priority := "strategic", originalRow := some 3 }

/-- Entry id 11 of the dashboard's built-in dataset (src/dashboard.js),
the sample doctor with priority new-opportunities. -/
def oppDoctor : Doctor :=
  { id := 11, name := "Dr. André Ribeiro", specialty := "oncologia",
    segment := "incentivar", volume := 45, affinity := 88,
    priority := "new-opportunities", originalRow := none }

/-- C4: the segment function returns blindar iff volume≥60 and
affinity≥60, incentivar iff volume<60 and affinity≥60, avaliar iff
volume≥60 and affinity<60, conquistar otherwise; in particular
segment(60,60) = blindar, so 60 is an inclusive lower bound on each
axis. -/
theorem parseSegment_cases (v a : ℚ) :
    (parseSegment v a = "blindar" ↔ 60 ≤ v ∧ 60 ≤ a) ∧
    (parseSegment v a = "incentivar" ↔ v < 60 ∧ 60 ≤ a) ∧
    (parseSegment v a = "avaliar" ↔ 60 ≤ v ∧ a < 60) ∧
    (parseSegment v a = "conquistar" ↔ v < 60 ∧ a < 60) ∧
    parseSegment 60 60 = "blindar" := by
  unfold parseSegment
  rcases lt_or_le v 60 with hv | hv <;> rcases lt_or_le a 60 with ha | ha <;>
    simp [hv, ha, not_le_of_lt, not_lt_of_le]

/-- C4 witness at the inclusive boundary. -/
theorem parseSegment_cases_boundary : parseSegment 60 60 = "blindar" :=
  (parseSegment_cases 60 60).2.2.2.2

/-- C5: the priority function evaluates its rules in order with the first
match winning: blindar forces strategic even past the 80 thresholds;
otherwise strictly exceeding 80 on either axis gives high; otherwise
strictly below 40 on both axes gives new-opportunities; otherwise
strategic. -/
theorem parsePriority_rules (v a : ℚ) (seg : String) :
    (seg = "blindar" → parsePriority v a seg = "strategic") ∧
    (seg ≠ "blindar" → (80 < v ∨ 80 < a) → parsePriority v a seg = "high") ∧
    (seg ≠ "blindar" → ¬(80 < v ∨ 80 < a) → v < 40 ∧ a < 40 →
      parsePriority v a seg = "new-opportunities") ∧
    (seg ≠ "blindar" → ¬(80 < v ∨ 80 < a) → ¬(v < 40 ∧ a < 40) →
      parsePriority v a seg = "strategic") := by
  unfold parsePriority
  refine ⟨fun h => by simp [h], fun h h80 => by simp [h, h80], ?_, ?_⟩
  · intro h h80 h40
    simp [h, h80, h40]
  · intro h h80 h40
    simp [h, h80, h40]

/-- C5 witness: a blindar doctor above the 80 threshold is still
strategic, and the remaining rules fire as stated on sample inputs. -/
theorem parsePriority_rules_sample :
    parsePriority 85 90 "blindar" = "strategic" ∧
    parsePriority 85 30 "avaliar" = "high" ∧
    parsePriority 30 35 "conquistar" = "new-opportunities" ∧
    parsePriority 50 50 "conquistar" = "strategic" :=
  ⟨(parsePriority_rules 85 90 "blindar").1 rfl,
   (parsePriority_rules 85 30 "avaliar").2.1 (by decide) (Or.inl (by norm_num)),
   (parsePriority_rules 30 35 "conquistar").2.2.1 (by decide)
     (by push_neg; norm_num) (by norm_num),
   (parsePriority_rules 50 50 "conquistar").2.2.2 (by decide)
     (by push_neg; norm_num) (by push_neg; intro h; norm_num)⟩

/-- Dropping while a predicate holds is idempotent. -/
theorem dropWhile_twice (p : α → Bool) (l : List α) :
    (l.dropWhile p).dropWhile p = l.dropWhile p := by
  induction l with
  | nil => rfl
  | cons c t ih =>
    by_cases h : p c
    · simp [List.dropWhile_cons, h, ih]
    · simp [List.dropWhile_cons, h]

/-- What dropWhile removes can be restored by prepending. -/
theorem exists_append_dropWhile (p : α → Bool) (l : List α) :
    ∃ t, t ++ l.dropWhile p = l := by
  induction l with
  | nil => exact ⟨[], rfl⟩
  | cons c t ih =>
    by_cases h : p c
    · obtain ⟨u, hu⟩ := ih
      exact ⟨c :: u, by simp [List.dropWhile_cons, h, hu]⟩
    · exact ⟨[], by simp [List.dropWhile_cons, h]⟩

/-- The head surviving a dropWhile fails the predicate. -/
theorem head_not_of_dropWhile (p : α → Bool) (l : List α) (a : α) (t : List α)
    (h : l.dropWhile p = a :: t) : p a = false := by
  induction l with
  | nil => simp at h
  | cons c cs ih =>
    by_cases hc : p c
    · rw [List.dropWhile_cons, if_pos hc] at h
      exact ih h
    · rw [List.dropWhile_cons, if_neg hc] at h
      injection h with h1 h2
      subst h1
      simpa using hc

/-- dropWhile is the identity when the head (if any) fails the predicate. -/
theorem dropWhile_eq_self_of_head (p : α → Bool) (l : List α)
    (h : ∀ a t, l = a :: t → p a = false) : l.dropWhile p = l := by
  cases l with
  | nil => rfl
  | cons c cs => simp [List.dropWhile_cons, h c cs rfl]

/-- Trimming a character list twice equals trimming once. -/
theorem trimChars_idem (l : List Char) : trimChars (trimChars l) = trimChars l := by
  unfold trimChars
  have hBrev : ((((l.dropWhile Char.isWhitespace).reverse.dropWhile
      Char.isWhitespace).reverse).reverse) =
      (l.dropWhile Char.isWhitespace).reverse.dropWhile Char.isWhitespace :=
    List.reverse_reverse _
  have h1 : ((l.dropWhile Char.isWhitespace).reverse.dropWhile
      Char.isWhitespace).reverse.dropWhile Char.isWhitespace =
      ((l.dropWhile Char.isWhitespace).reverse.dropWhile Char.isWhitespace).reverse := by
    apply dropWhile_eq_self_of_head
    intro a t ht
    obtain ⟨u, hu⟩ :=
      exists_append_dropWhile Char.isWhitespace (l.dropWhile Char.isWhitespace).reverse
    have hBA : ((l.dropWhile Char.isWhitespace).reverse.dropWhile
        Char.isWhitespace).reverse ++ u.reverse = l.dropWhile Char.isWhitespace := by
      have h2 := congrArg List.reverse hu
      simpa [List.reverse_append] using h2
    have hAeq : l.dropWhile Char.isWhitespace = a :: (t ++ u.reverse) := by
      rw [← hBA, ht]
      simp
    exact head_not_of_dropWhile Char.isWhitespace l a _ hAeq
  rw [h1, hBrev, dropWhile_twice]

/-- JavaScript trim is idempotent. -/
theorem jsTrim_idem (s : String) : jsTrim (jsTrim s) = jsTrim s := by
  show String.mk (trimChars (trimChars s.data)) = String.mk (trimChars s.data)
  exact congrArg String.mk (trimChars_idem s.data)

/-- Lowercasing preserves length, so normalizeString has the trimmed length. -/
theorem normalizeString_length (s : String) (h : ¬s = "") :
    (normalizeString s).length = (jsTrim s).length := by
  unfold normalizeString jsToLower
  rw [if_neg h]
  show ((jsTrim s).data.map Char.toLower).length = (jsTrim s).data.length
  exact List.length_map _ _

/-- Inversion for a successful processRow: the record's fields in terms
of the row's cells and the processed numeric pair. -/
theorem processRow_eq_some {row headers : List String} {n : Nat}
    {rng : Nat → ℚ} {k : Nat} {d : Doctor} {kf : Nat}
    (h : processRow row headers n rng k = (some d, kf)) :
    ∃ nameStr, cellAt row (identifyColumns headers).name = some nameStr ∧
      ¬(nameStr = "" ∨ (normalizeString nameStr).length = 0) ∧
      d.name = jsTrim nameStr ∧
      d.segment = parseSegment (rowNums row headers rng k).1
        (rowNums row headers rng k).2.1 ∧
      d.volume = jsRound (rowNums row headers rng k).1 ∧
      d.affinity = jsRound (rowNums row headers rng k).2.1 ∧
      d.priority = parsePriority (rowNums row headers rng k).1
        (rowNums row headers rng k).2.1 d.segment ∧
      kf = (rowNums row headers rng k).2.2 := by
  simp only [processRow] at h
  split at h
  · exact absurd (congrArg Prod.fst h) (by simp)
  · split at h
    · exact absurd (congrArg Prod.fst h) (by simp)
    · rename_i nameStr hcell
      split at h
      · exact absurd (congrArg Prod.fst h) (by simp)
      · rename_i hguard
        refine ⟨nameStr, hcell, hguard, ?_⟩
        have h1 := congrArg Prod.fst h
        have h2 := congrArg Prod.snd h
        simp only at h1 h2
        injection h1 with h1
        subst h1
        subst h2
        simp [rowNums]

/-- Any record emitted by processRow carries a trimmed, non-empty name. -/
theorem processRow_name {row headers : List String} {n : Nat}
    {rng : Nat → ℚ} {k : Nat} {d : Doctor} {kf : Nat}
    (h : processRow row headers n rng k = (some d, kf)) :
    d.name ≠ "" ∧ jsTrim d.name = d.name := by
  obtain ⟨nameStr, _, hguard, hname, _⟩ := processRow_eq_some h
  push_neg at hguard
  obtain ⟨hne, hlen⟩ := hguard
  rw [normalizeString_length nameStr hne] at hlen
  have htrim : jsTrim nameStr ≠ "" := by
    intro he
    apply hlen
    rw [he]
    rfl
  constructor
  · rw [hname]; exact htrim
  · rw [hname]; exact jsTrim_idem nameStr

/-- Every record collected by the row loop has a trimmed non-empty name. -/
theorem processRows_names (headers : List String) (rng : Nat → ℚ)
    (rows : List (List String)) (idx k : Nat) :
    ∀ d ∈ (processRows headers rng rows idx k).1,
      d.name ≠ "" ∧ jsTrim d.name = d.name := by
  induction rows generalizing idx k with
  | nil => simp [processRows]
  | cons r rest ih =>
    intro d hd
    rw [processRows] at hd
    cases hstep : processRow r headers (idx + 2) rng k with
    | mk od k1 =>
      rw [hstep] at hd
      cases od with
      | none => exact ih (idx + 1) k1 d hd
      | some d0 =>
        simp only [List.mem_cons] at hd
        rcases hd with hd | hd
        · subst hd
          exact processRow_name hstep
        · exact ih (idx + 1) k1 d hd

/-- C6: every Doctor produced by the pipeline has a non-empty trimmed
name; a data row whose resolved name cell trims to the empty string is
dropped (processRow yields none and consumes no randomness); and a grid
with at least one data row is always processed to a success value, so a
dropped row never aborts the batch. -/
theorem c6_pipeline_names (rawData : List (List String)) (rng : Nat → ℚ)
    (k : Nat) (ds : List Doctor) (kf : Nat)
    (h : processRawData rawData rng k = (Except.ok ds, kf)) :
    (∀ d ∈ ds, d.name ≠ "" ∧ jsTrim d.name = d.name) ∧
    (∀ row headers n k0 s, cellAt row (identifyColumns headers).name = some s →
      jsTrim s = "" → processRow row headers n rng k0 = (none, k0)) ∧
    (∀ g : List (List String), 2 ≤ g.length →
      ∃ ds2 kf2, processRawData g rng k = (Except.ok ds2, kf2)) := by
  refine ⟨?_, ?_, ?_⟩
  · unfold processRawData at h
    split at h
    · exact absurd (congrArg Prod.fst h) (by simp)
    · intro d hd
      have h1 := congrArg Prod.fst h
      simp only at h1
      injection h1 with h1
      apply processRows_names (rawData.headD []) rng rawData.tail 0 k d
      rw [h1]
      exact hd
  · intro row headers n k0 s hcell htrim
    simp only [processRow]
    split
    · rfl
    · rw [hcell]
      have hguard : s = "" ∨ (normalizeString s).length = 0 := by
        by_cases hse : s = ""
        · exact Or.inl hse
        · refine Or.inr ?_
          rw [normalizeString_length s hse, htrim]
          rfl
      simp [hguard]
  · intro g hg
    unfold processRawData
    rw [if_neg (by omega)]
    exact ⟨_, _, rfl⟩

/-- C6 witness: the blank-name row of `c6grid` is dropped while the
valid row survives with a non-empty trimmed name. -/
theorem c6_pipeline_names_sample :
    processRawData c6grid rng0 0 = (Except.ok [c6doc], 0) ∧
    c6doc.name ≠ "" ∧ jsTrim c6doc.name = c6doc.name := by
  have h : processRawData c6grid rng0 0 = (Except.ok [c6doc], 0) := by
    with_unfolding_all rfl
  have h2 := (c6_pipeline_names c6grid rng0 0 [c6doc] 0 h).1 c6doc (by simp)
  exact ⟨h, h2.1, h2.2⟩

/-- When the resolved name column is index 0, no row ever survives. -/
theorem processRows_empty_of_name_idx_zero (headers : List String)
    (hname : (identifyColumns headers).name = some 0)
    (rng : Nat → ℚ) (rows : List (List String)) (idx k : Nat) :
    processRows headers rng rows idx k = ([], k) := by
  induction rows generalizing idx k with
  | nil => rfl
  | cons r rest ih =>
    have hr : processRow r headers (idx + 2) rng k = (none, k) := by
      simp only [processRow]
      rw [hname]
      rfl
    show (match processRow r headers (idx + 2) rng k with
      | (some d, k1) =>
        ((d :: (processRows headers rng rest (idx + 1) k1).1),
         (processRows headers rng rest (idx + 1) k1).2)
      | (none, k1) => processRows headers rng rest (idx + 1) k1) = ([], k)
    rw [hr]
    exact ih (idx + 1) k

/-- C10: when the name-matching header sits at column index 0 the falsy
test rejects the resolved index, every data row is dropped, and a grid
with data rows processes to an empty collection without any error. -/
theorem c10_name_index_zero (headers : List String)
    (hname : (identifyColumns headers).name = some 0) :
    (∀ row n rng k, processRow row headers n rng k = (none, k)) ∧
    (∀ rest rng k, rest ≠ [] →
      processRawData (headers :: rest) rng k =
        (Except.ok ([] : List Doctor), k)) := by
  constructor
  · intro row n rng k
    simp only [processRow]
    rw [hname]
    rfl
  · intro rest rng k hne
    unfold processRawData
    rw [if_neg (by cases rest with
      | nil => exact absurd rfl hne
      | cons a t => simp)]
    simp only [List.headD, List.tail]
    rw [processRows_empty_of_name_idx_zero headers hname rng rest 0 k]

/-- C10 witness on the scenario A grid, whose name header "Nome" sits at
index 0. -/
theorem c10_name_index_zero_sample :
    processRow ["Dr. Teste", "Cardio", "85", "90"] scenarioAHeaders 2 rng0 0 =
      (none, 0) ∧
    processRawData scenarioAGrid rng0 0 = (Except.ok ([] : List Doctor), 0) := by
  have hname : (identifyColumns scenarioAHeaders).name = some 0 := by
    with_unfolding_all rfl
  exact ⟨(c10_name_index_zero scenarioAHeaders hname).1 _ 2 rng0 0,
         (c10_name_index_zero scenarioAHeaders hname).2
           [["Dr. Teste", "Cardio", "85", "90"]] rng0 0 (by simp)⟩

/-- C2: evaluating the pipeline on the scenario A grid.  The name header
"Nome" is matched at index 0 (and the other three columns are resolved),
yet the falsy test `!columnMap.name` discards index 0, so the run yields
zero Doctors instead of the specified single record — the claimed output
never appears. -/
theorem c2_scenarioA_eval :
    identifyColumns scenarioAHeaders = ⟨some 0, some 1, some 2, some 3⟩ ∧
    processRawData scenarioAGrid rng0 0 = (Except.ok ([] : List Doctor), 0) := by
  constructor
  · with_unfolding_all rfl
  · with_unfolding_all rfl

/-- Rounding is the identity on integral rationals. -/
theorem jsRound_den_one (q : ℚ) (hq : q.den = 1) : ((jsRound q : Int) : ℚ) = q := by
  have hnum : ((q.num : ℚ)) = q := (Rat.den_eq_one_iff q).1 hq
  unfold jsRound
  rw [← hnum, Int.floor_int_add]
  norm_num

/-- C1 counterexample: on the row with volume cell "59.5" the stored
segment is incentivar (classified from 59.5 < 60) while re-deriving from
the stored rounded integers (60, 60) gives blindar. -/
theorem c1_roundtrip_counterexample :
    processRow c1row c1headers 2 rng0 0 = (some c1doc, 0) ∧
    c1doc.segment ≠ parseSegment (c1doc.volume : ℚ) (c1doc.affinity : ℚ) := by
  constructor
  · with_unfolding_all rfl
  · have hb : parseSegment (c1doc.volume : ℚ) (c1doc.affinity : ℚ) = "blindar" := by
      show parseSegment ((60 : Int) : ℚ) ((60 : Int) : ℚ) = "blindar"
      norm_num [parseSegment]
    rw [hb]
    decide

/-- C1 amended: the stored segment is the segment function applied to the
pre-rounding processed volume and affinity; the stored integers are the
rounded processed values; and whenever both processed values are already
integral, re-deriving the segment from the stored fields does reproduce
the stored segment. -/
theorem c1_segment_of_processed (row headers : List String) (n : Nat)
    (rng : Nat → ℚ) (k kf : Nat) (d : Doctor)
    (h : processRow row headers n rng k = (some d, kf)) :
    d.segment = parseSegment (rowNums row headers rng k).1
      (rowNums row headers rng k).2.1 ∧
    d.volume = jsRound (rowNums row headers rng k).1 ∧
    d.affinity = jsRound (rowNums row headers rng k).2.1 ∧
    ((rowNums row headers rng k).1.den = 1 →
      (rowNums row headers rng k).2.1.den = 1 →
      d.segment = parseSegment (d.volume : ℚ) (d.affinity : ℚ)) := by
  obtain ⟨nameStr, hcell, hguard, hname, hseg, hvol, haff, hpri, hkf⟩ :=
    processRow_eq_some h
  refine ⟨hseg, hvol, haff, ?_⟩
  intro hd1 hd2
  rw [hvol, haff, jsRound_den_one _ hd1, jsRound_den_one _ hd2]
  exact hseg

/-- C1 witness: with integer-valued cells the round trip does hold. -/
theorem c1_segment_of_processed_sample :
    c1wdoc.segment = parseSegment (c1wdoc.volume : ℚ) (c1wdoc.affinity : ℚ) :=
  (c1_segment_of_processed ["1", "Dr. C", "85", "90"] c1headers 2 rng0 0 0 c1wdoc
    (by with_unfolding_all rfl)).2.2.2
    (by with_unfolding_all rfl) (by with_unfolding_all rfl)

/-- C3 counterexample: the volume cell "0" parses as the well-formed
number 0, yet the pipeline stores the random draw (50 under `rngHalf`)
and consumes one random value. -/
theorem c3_zero_cell_counterexample :
    jsParseFloat "0" = some 0 ∧
    processRow c3row c1headers 2 rngHalf 0 = (some c3doc, 1) ∧
    c3doc.volume = 50 := by
  refine ⟨by with_unfolding_all rfl, by with_unfolding_all rfl, rfl⟩

/-- C3 amended: a random value in [0,100) is substituted when the cell is
absent, empty, fails to parse, or parses to the falsy number 0; a
well-formed nonzero parse is used verbatim with no random draw. -/
theorem c3_random_fallback_policy (cell : Option String) (rng : Nat → ℚ)
    (k kp : Nat) (hr : ∀ n, 0 ≤ rng n ∧ rng n < 1) :
    (∀ s q, cell = some s → s ≠ "" → jsParseFloat s = some q → q ≠ 0 →
      rawCell cell rng k = (Sum.inl s, k) ∧
      processNumeric (Sum.inl s) rng kp = (q, kp)) ∧
    ((cell = none ∨ cell = some "") →
      rawCell cell rng k = (Sum.inr (rng k * 100), k + 1)) ∧
    (∀ s, jsParseFloat s = none →
      processNumeric (Sum.inl s) rng kp = (rng kp * 100, kp + 1)) ∧
    (∀ s, jsParseFloat s = some 0 →
      processNumeric (Sum.inl s) rng kp = (rng kp * 100, kp + 1)) ∧
    (∀ n, 0 ≤ rng n * 100 ∧ rng n * 100 < 100) := by
  refine ⟨?_, ?_, ?_, ?_, ?_⟩
  · intro s q hcell hs hparse hq
    subst hcell
    exact ⟨by simp [rawCell, hs], by simp [processNumeric, hparse, hq]⟩
  · rintro (hcell | hcell) <;> subst hcell <;> simp [rawCell]
  · intro s hparse
    simp [processNumeric, hparse]
  · intro s hparse
    simp [processNumeric, hparse]
  · intro n
    obtain ⟨h0, h1⟩ := hr n
    constructor
    · exact mul_nonneg h0 (by norm_num)
    · have := mul_lt_mul_of_pos_right h1 (show (0:ℚ) < 100 by norm_num)
      simpa using this

/-- C3 witness: the well-formed nonzero cell "85" is used verbatim and no
random value is consumed. -/
theorem c3_random_fallback_policy_sample :
    processNumeric (Sum.inl "85") rng0 3 = (85, 3) :=
  ((c3_random_fallback_policy (some "85") rng0 0 3
      (fun _ => ⟨le_refl 0, by norm_num [rng0]⟩)).1 "85" 85 rfl (by decide)
      (by with_unfolding_all rfl) (by norm_num)).2

/-- C7: on any pipeline-level failure — the external stages failing, or a
grid with fewer than 2 rows — loadData raises nothing and returns the
fixed 3-entry fallback dataset in full. -/
theorem c7_fallback_on_failure (grid : List (List String)) (e : String)
    (rng : Nat → ℚ) (k : Nat) (h : grid.length < 2) :
    loadData (Except.ok grid) rng k = getFallbackData ∧
    loadData (Except.error e) rng k = getFallbackData ∧
    getFallbackData.length = 3 := by
  refine ⟨?_, rfl, rfl⟩
  show (match processRawData grid rng k with
    | (Except.error _, _) => getFallbackData
    | (Except.ok ds, _) => ds) = getFallbackData
  unfold processRawData
  rw [if_pos h]

/-- C7 witness: a header-only grid and a transport error both fall back. -/
theorem c7_fallback_on_failure_sample :
    loadData (Except.ok [scenarioAHeaders]) rng0 0 = getFallbackData ∧
    loadData (Except.error "Erro HTTP: 404") rng0 0 = getFallbackData :=
  ⟨(c7_fallback_on_failure [scenarioAHeaders] "Erro HTTP: 404" rng0 0 (by decide)).1,
   (c7_fallback_on_failure [scenarioAHeaders] "Erro HTTP: 404" rng0 0 (by decide)).2.1⟩

/-- A guarded filter stage maps sublists to sublists. -/
theorem filter_stage_sublist (c : Prop) [Decidable c] (p : Doctor → Bool)
    {l l2 : List Doctor} (h : List.Sublist l l2) :
    List.Sublist (if c then l.filter p else l) (if c then l2.filter p else l2) := by
  split
  · exact h.filter p
  · exact h

/-- The search stage preserves sublists. -/
theorem stageSearch_sub (f : FilterState) {l l2 : List Doctor}
    (h : List.Sublist l l2) : List.Sublist (stageSearch f l) (stageSearch f l2) := by
  unfold stageSearch
  split
  · exact h
  · exact h.filter _

/-- The segment stage preserves sublists. -/
theorem stageSegments_sub (f : FilterState) {l l2 : List Doctor}
    (h : List.Sublist l l2) :
    List.Sublist (stageSegments f l) (stageSegments f l2) := by
  unfold stageSegments
  exact filter_stage_sublist _ _ h

/-- The specialty stage preserves sublists. -/
theorem stageSpecialty_sub (f : FilterState) {l l2 : List Doctor}
    (h : List.Sublist l l2) :
    List.Sublist (stageSpecialty f l) (stageSpecialty f l2) := by
  unfold stageSpecialty
  split
  · exact h
  · exact h.filter _

/-- The affinity stage preserves sublists. -/
theorem stageAffinity_sub (f : FilterState) {l l2 : List Doctor}
    (h : List.Sublist l l2) :
    List.Sublist (stageAffinity f l) (stageAffinity f l2) :=
  h.filter _

/-- The quick-filter stage preserves sublists. -/
theorem stageQuick_sub (f : FilterState) {l l2 : List Doctor}
    (h : List.Sublist l l2) : List.Sublist (stageQuick f l) (stageQuick f l2) := by
  unfold stageQuick
  exact filter_stage_sublist _ _ h

/-- Raising the volume threshold can only shrink the volume stage. -/
theorem stageVolume_mono (f : FilterState) {m1 m2 : Int} (h : m1 ≤ m2)
    (l : List Doctor) :
    List.Sublist (stageVolume { f with volumeMin := m2 } l)
      (stageVolume { f with volumeMin := m1 } l) := by
  unfold stageVolume
  refine List.monotone_filter_right l ?_
  intro d hd
  simp only [decide_eq_true_eq] at hd ⊢
  omega

/-- Raising the affinity threshold can only shrink the affinity stage. -/
theorem stageAffinity_mono (f : FilterState) {m1 m2 : Int} (h : m1 ≤ m2)
    (l : List Doctor) :
    List.Sublist (stageAffinity { f with affinityMin := m2 } l)
      (stageAffinity { f with affinityMin := m1 } l) := by
  unfold stageAffinity
  refine List.monotone_filter_right l ?_
  intro d hd
  simp only [decide_eq_true_eq] at hd ⊢
  omega

/-- C8: raising volume.min (or affinity.min) while holding every other
filter field fixed yields a filtered result that is a subset of the
result at the lower threshold, so the result count never increases. -/
theorem c8_threshold_monotone (doctors : List Doctor) (f : FilterState)
    (m1 m2 : Int) (h : m1 ≤ m2) :
    (applyFilters doctors { f with volumeMin := m2 } ⊆
       applyFilters doctors { f with volumeMin := m1 } ∧
     (applyFilters doctors { f with volumeMin := m2 }).length ≤
       (applyFilters doctors { f with volumeMin := m1 }).length) ∧
    (applyFilters doctors { f with affinityMin := m2 } ⊆
       applyFilters doctors { f with affinityMin := m1 } ∧
     (applyFilters doctors { f with affinityMin := m2 }).length ≤
       (applyFilters doctors { f with affinityMin := m1 }).length) := by
  have hv : List.Sublist (applyFilters doctors { f with volumeMin := m2 })
      (applyFilters doctors { f with volumeMin := m1 }) := by
    show List.Sublist
      (stageQuick f (stageAffinity f (stageVolume { f with volumeMin := m2 }
        (stageSpecialty f (stageSegments f (stageSearch f doctors))))))
      (stageQuick f (stageAffinity f (stageVolume { f with volumeMin := m1 }
        (stageSpecialty f (stageSegments f (stageSearch f doctors))))))
    exact stageQuick_sub f (stageAffinity_sub f (stageVolume_mono f h _))
  have ha : List.Sublist (applyFilters doctors { f with affinityMin := m2 })
      (applyFilters doctors { f with affinityMin := m1 }) := by
    show List.Sublist
      (stageQuick f (stageAffinity { f with affinityMin := m2 } (stageVolume f
        (stageSpecialty f (stageSegments f (stageSearch f doctors))))))
      (stageQuick f (stageAffinity { f with affinityMin := m1 } (stageVolume f
        (stageSpecialty f (stageSegments f (stageSearch f doctors))))))
    exact stageQuick_sub f (stageAffinity_mono f h _)
  exact ⟨⟨hv.subset, hv.length_le⟩, ⟨ha.subset, ha.length_le⟩⟩

/-- C8 witness on the fallback dataset with thresholds 0 and 50. -/
theorem c8_threshold_monotone_sample :
    (applyFilters getFallbackData { defaultFilters with volumeMin := 50 }).length ≤
      (applyFilters getFallbackData { defaultFilters with volumeMin := 0 }).length :=
  ((c8_threshold_monotone getFallbackData defaultFilters 0 50 (by decide)).1).2

/-- C9: evaluating the quick-filter stage on the dashboard record with
priority new-opportunities.  The tag "new-opportunities" is rewritten to
"new_opportunities" (hyphen to underscore), which matches no stored
priority spelling (all priorities use hyphens), so the doctor is filtered
out — the claimed match never happens. -/
theorem c9_quickfilter_hyphen_eval :
    oppDoctor.priority = "new-opportunities" ∧
    jsReplaceHyphen "new-opportunities" = "new_opportunities" ∧
    applyFilters [oppDoctor]
      { defaultFilters with quickFilters := ["new-opportunities"] } = [] := by
  refine ⟨rfl, by with_unfolding_all rfl, by with_unfolding_all rfl⟩
